import Mathlib

/-!
Shallow embedding of the package-manager adapter core of `updatery.py`:
the `PackageInfo` record, the positional winget table parser
(`_parse_winget_list`), the scan filters of both adapters, and the
exit-code translation tables.  External effects (subprocess spawning,
timeouts, JSON text decoding) are modelled by `Option`-valued inputs:
`none` stands for a spawn failure or timeout, and a decoded-JSON input of
`none` stands for a `json.JSONDecodeError`.
-/

namespace Updatery

/-- Characters stripped by Python's `str.strip()` (ASCII whitespace). -/
def pyIsSpace (c : Char) : Bool :=
  c = ' ' || c = '\t' || c = '\n' || c = '\x0d' || c = '\x0b' || c = '\x0c'

/-- Python `s.strip()` on a character list. -/
def pyStrip (cs : List Char) : List Char :=
  ((cs.dropWhile pyIsSpace).reverse.dropWhile pyIsSpace).reverse

/-- Python `hay.find(needle)`: index of the first occurrence, `none` for `-1`. -/
def findSub (needle : List Char) : List Char → Option Nat
  | [] => if needle.isEmpty then some 0 else none
  | c :: rest =>
    if List.isPrefixOf needle (c :: rest) then some 0
    else (findSub needle rest).map (· + 1)

/-- Python `needle in hay` (substring containment). -/
def containsSub (needle hay : List Char) : Bool :=
  (findSub needle hay).isSome

/-- Python slice `cs[start:stop]` for non-negative bounds. -/
def pySlice (cs : List Char) (start stop : Nat) : List Char :=
  (cs.drop start).take (stop - start)

/-- Worker for `splitLines`; accumulates the current line reversed. -/
def splitLinesGo : List Char → List Char → List (List Char)
  | [], acc => [acc.reverse]
  | c :: rest, acc =>
    if c = '\n' then
      acc.reverse :: (if rest.isEmpty then [] else splitLinesGo rest [])
    else splitLinesGo rest (c :: acc)

/-- Python `s.splitlines()` restricted to `\n` terminators: a trailing
newline produces no extra empty line and `""` yields `[]`. -/
def splitLines (cs : List Char) : List (List Char) :=
  if cs.isEmpty then [] else splitLinesGo cs []

/-- Python `dict` lookup `d.get(k)` for a dict built by assignments in list
order: the LAST binding of a key wins. -/
def pyDictGet {α β : Type} [DecidableEq α] : List (α × β) → α → Option β
  | [], _ => none
  | (k, v) :: rest, key =>
    match pyDictGet rest key with
    | some w => some w
    | none => if k = key then some v else none

/-- Python `d.get(k, dflt)`. -/
def pyDictGetD {α β : Type} [DecidableEq α] (d : List (α × β)) (key : α) (dflt : β) : β :=
  (pyDictGet d key).getD dflt

/-- The `PackageInfo` dataclass. -/
structure PackageInfo where
  name : String
  package_id : String
  current_version : String
  available_version : String
deriving DecidableEq, Repr

/-- A completed subprocess result: `returncode` and captured `stdout`. -/
structure ProcResult where
  returncode : Int
  stdout : String
deriving DecidableEq, Repr

/-- The fixed column keyword list `["Name", "Id", "Version", "Available", "Source"]`. -/
def colNames : List String := ["Name", "Id", "Version", "Available", "Source"]

/-- Stable insertion of one `(column, offset)` pair, ordering by offset;
equal offsets keep earlier elements first (Python `list.sort` is stable). -/
def insertByPos (x : String × Nat) : List (String × Nat) → List (String × Nat)
  | [] => [x]
  | y :: ys => if x.2 < y.2 then x :: y :: ys else y :: insertByPos x ys

/-- Stable sort by offset, modelling `col_starts.sort(key=lambda x: x[1])`. -/
def sortByPos (l : List (String × Nat)) : List (String × Nat) :=
  l.foldl (fun acc x => insertByPos x acc) []

/-- A line is a header when it contains `"Name"`, `"Id"` and `"Version"`. -/
def isHeaderLine (l : List Char) : Bool :=
  containsSub "Name".data l && containsSub "Id".data l && containsSub "Version".data l

/-- Column start offsets found in the header line, kept when present and
sorted by position. -/
def colStarts (header : List Char) : List (String × Nat) :=
  sortByPos (colNames.filterMap fun n => (findSub n.data header).map fun p => (n, p))

/-- One data row: each retained column's value is the slice from its offset
to the next column's offset (or end of line), stripped; a column starting
beyond the end of the line is empty. -/
def buildRow : List (String × Nat) → List Char → List (String × String)
  | [], _ => []
  | (n, s) :: rest, line =>
    let e : Nat := match rest with
      | [] => line.length
      | (_, s') :: _ => s'
    let v : String :=
      if s < line.length then String.mk (pyStrip (pySlice line s e)) else ""
    (n, v) :: buildRow rest line

/-- The body of `_parse_winget_list` once the header index is known: check
the separator line (stripped, it must contain only dashes — possibly
none), compute column offsets, and slice every non-blank following line. -/
def parseWithHeader (lines : List (List Char)) (hi : Nat) : List (List (String × String)) :=
  if hi + 1 < lines.length then
    if (pyStrip (lines.getD (hi + 1) [])).all (fun c => c = '-') then
      let cols := colStarts (lines.getD hi [])
      if cols.length < 3 then []
      else ((lines.drop (hi + 2)).filter fun l => !(pyStrip l).isEmpty).map (buildRow cols)
    else []
  else []

/-- `WingetManager._parse_winget_list`: locate the first line containing
`"Name"`, `"Id"` and `"Version"`, then parse the block after it. -/
def WingetManager.parse_winget_list (output : String) : List (List (String × String)) :=
  match (splitLines output.data).findIdx? isHeaderLine with
  | none => []
  | some hi => parseWithHeader (splitLines output.data) hi

/-- The filter of `WingetManager.get_updatable_packages`: keep a row when
its `Source` is exactly `"winget"` and its `Available` value is non-blank
after stripping. -/
def keepRow (p : List (String × String)) : Bool :=
  (pyDictGet p "Source" == some "winget") && !(pyStrip (pyDictGetD p "Available" "").data).isEmpty

/-- Record construction of `WingetManager.get_updatable_packages`: missing
columns default to `"?"`. -/
def mkWingetInfo (p : List (String × String)) : PackageInfo :=
  { name := pyDictGetD p "Name" "?"
    package_id := pyDictGetD p "Id" "?"
    current_version := pyDictGetD p "Version" "?"
    available_version := pyDictGetD p "Available" "?" }

/-- The list comprehension of `WingetManager.get_updatable_packages`. -/
def wingetRecords (rows : List (List (String × String))) : List PackageInfo :=
  (rows.filter keepRow).map mkWingetInfo

/-- `WingetManager.get_updatable_packages`: `none` models a
`TimeoutExpired` or spawn exception (caught, yielding `[]`); otherwise the
captured stdout is parsed and filtered.  The winget exit code is ignored. -/
def WingetManager.get_updatable_packages : Option ProcResult → List PackageInfo
  | none => []
  | some res => wingetRecords (WingetManager.parse_winget_list res.stdout)

/-- A value of the decoded `npm outdated` JSON object: either a JSON
object (modelled as string fields, the only shape the scan reads) or any
non-dict value, which `isinstance(info, dict)` rejects. -/
inductive NpmValue where
  | obj (fields : List (String × String))
  | other
deriving DecidableEq, Repr

/-- The npm per-entry step: `info.get("current", "?")` and
`info.get("latest", "?")` must be truthy (non-empty) and unequal for a
record to be appended. -/
def npmEntry (e : String × NpmValue) : Option PackageInfo :=
  match e.2 with
  | NpmValue.obj fields =>
    let current := pyDictGetD fields "current" "?"
    let latest := pyDictGetD fields "latest" "?"
    if current ≠ "" ∧ latest ≠ "" ∧ current ≠ latest then
      some { name := e.1, package_id := e.1, current_version := current
             available_version := latest }
    else none
  | NpmValue.other => none

/-- The decode phase of the npm scan: `none` models a `JSONDecodeError`
(caught, yielding `[]`); a decoded object is folded entry by entry. -/
def npmDecodeRecords : Option (List (String × NpmValue)) → List PackageInfo
  | none => []
  | some data => data.filterMap npmEntry

/-- `NpmManager.get_updatable_packages`: `none` models a timeout or spawn
exception; otherwise the exit code must be 0 or 1 before the decoded
output is used. -/
def NpmManager.get_updatable_packages :
    Option (Int × Option (List (String × NpmValue))) → List PackageInfo
  | none => []
  | some (rc, out) => if rc = 0 ∨ rc = 1 then npmDecodeRecords out else []

/-- The `hex_codes` helper of `WingetManager._get_exit_codes`: each code is
registered as given, and codes above `0x7FFFFFFF` are additionally
registered under their two's-complement signed value. -/
def hexCodes (pairs : List (Int × String)) : List (Int × String) :=
  (pairs.map fun p =>
    (p.1, p.2) :: (if p.1 > 0x7FFFFFFF then [(p.1 - 0x100000000, p.2)] else [])).flatten

/-- `WingetManager._get_exit_codes`, as the assignment-ordered binding list
of the Python dict literal. -/
def WingetManager.get_exit_codes : List (Int × String) :=
  [(3, "Reboot required to complete"),
   (5, "Access denied — needs admin elevation")] ++
  hexCodes
    [(0x8A150006, "ShellExecute install failed"),
     (0x8A150008, "Downloading installer failed"),
     (0x8A150010, "No applicable installer for this system"),
     (0x8A150011, "Installer hash mismatch"),
     (0x8A150019, "Requires administrator privileges"),
     (0x8A15002B, "No applicable update found"),
     (0x8A15004F, "Upgrade version is not newer than installed"),
     (0x8A150061, "Package is already installed"),
     (0x8A150101, "App is running — close it and retry"),
     (0x8A150102, "Another installation in progress — try later"),
     (0x8A150103, "File in use — close the app and retry"),
     (0x8A150105, "Not enough disk space"),
     (0x8A150108, "Installer error — contact support"),
     (0x8A150109, "Restart PC to finish installation"),
     (0x8A15010A, "Installation failed — restart PC and retry"),
     (0x8A15010C, "Installation was cancelled"),
     (0x8A15010D, "Another version already installed"),
     (0x8A15010E, "A higher version is already installed"),
     (0x8A15010F, "Blocked by organization policy")]

/-- `WingetManager.get_exit_code_message`. -/
def WingetManager.get_exit_code_message (code : Int) : String :=
  (pyDictGet WingetManager.get_exit_codes code).getD
    ("Unknown error (code " ++ toString code ++ ")")

/-- The npm exit-code dict literal. -/
def npmCodes : List (Int × String) :=
  [(0, "Success"), (1, "General error"), (127, "Command not found")]

/-- `NpmManager.get_exit_code_message`. -/
def NpmManager.get_exit_code_message (code : Int) : String :=
  (pyDictGet npmCodes code).getD ("npm error (code " ++ toString code ++ ")")

/-- A sixty-dash separator line. -/
def sixtyDashes : String :=
  "------------------------------------------------------------"

/-- Winget output whose data row reports the same `Version` and
`Available` value (`1.0`), aligned with the header columns. -/
def sameVersionOutput : String :=
  "Name  Id    Version  Available  Source\n" ++
  "----------------------------------------\n" ++
  "A     B     1.0      1.0        winget"

/-- Winget output with a blank line where the dash separator belongs. -/
def blankSeparatorOutput : String :=
  "Name   Id        Version  Available  Source\n" ++
  "\n" ++
  "Foo.Bar  Foo.Bar.Id  1.0      2.0        winget"

/-- The positional scenario text of the specification: header, a sixty-dash
separator, and one data row. -/
def scenarioOutput : String :=
  "Name   Id        Version  Available  Source\n" ++
  sixtyDashes ++ "\n" ++
  "Foo.Bar  Foo.Bar.Id  1.0      2.0        winget"

/-- Winget output whose header lacks the `Available` and `Source`
keywords but has a well-formed data row. -/
def noAvailableOutput : String :=
  "Name  Id  Version\n" ++
  "-----------------\n" ++
  "foo   ba  1.0"

/-- A decoded npm object whose single entry has no `current` field. -/
def missingCurrentData : List (String × NpmValue) :=
  [("foo", NpmValue.obj [("latest", "1.0")])]

/-- The JSON scenario of the specification: `lodash` outdated, `left-pad`
with equal versions. -/
def scenarioNpmData : List (String × NpmValue) :=
  [("lodash", NpmValue.obj [("current", "4.0.0"), ("latest", "4.1.0")]),
   ("left-pad", NpmValue.obj [("current", "1.0.0"), ("latest", "1.0.0")])]

end Updatery

namespace Updatery

/-- `keepRow` unfolded into propositional form. -/
theorem keepRow_iff (p : List (String × String)) :
    keepRow p = true ↔
      pyDictGet p "Source" = some "winget" ∧
        pyStrip (pyDictGetD p "Available" "").data ≠ [] := by
  unfold keepRow
  rw [Bool.and_eq_true, beq_iff_eq, Bool.not_eq_true']
  constructor
  · rintro ⟨h1, h2⟩
    refine ⟨h1, ?_⟩
    intro hnil
    rw [hnil] at h2
    simp at h2
  · rintro ⟨h1, h2⟩
    refine ⟨h1, ?_⟩
    cases h : pyStrip (pyDictGetD p "Available" "").data with
    | nil => exact absurd h h2
    | cons c cs => simp

/-- Claim C1: every scan failure (spawn error or timeout, modelled by
`none`; unparsable winget output; an unacceptable npm exit code; a JSON
decode failure) yields the empty record list at the adapter boundary, for
both adapters. -/
theorem scan_failures_collapse_to_empty :
    (WingetManager.get_updatable_packages none = []) ∧
    (∀ res : ProcResult, WingetManager.parse_winget_list res.stdout = [] →
      WingetManager.get_updatable_packages (some res) = []) ∧
    (∀ res : ProcResult,
      (splitLines res.stdout.data).findIdx? isHeaderLine = none →
      WingetManager.get_updatable_packages (some res) = []) ∧
    (NpmManager.get_updatable_packages none = []) ∧
    (∀ (rc : Int) (out : Option (List (String × NpmValue))), rc ≠ 0 → rc ≠ 1 →
      NpmManager.get_updatable_packages (some (rc, out)) = []) ∧
    (∀ rc : Int, NpmManager.get_updatable_packages (some (rc, none)) = []) := by
  refine ⟨rfl, ?_, ?_, rfl, ?_, ?_⟩
  · intro res h
    simp [WingetManager.get_updatable_packages, h, wingetRecords]
  · intro res h
    simp [WingetManager.get_updatable_packages, WingetManager.parse_winget_list, h,
      wingetRecords]
  · intro rc out h0 h1
    simp [NpmManager.get_updatable_packages, h0, h1]
  · intro rc
    simp only [NpmManager.get_updatable_packages]
    split
    · rfl
    · rfl

/-- Witness for C1 at concrete failing inputs. -/
theorem scan_failures_collapse_to_empty_w :
    NpmManager.get_updatable_packages (some (3, some scenarioNpmData)) = [] ∧
    WingetManager.get_updatable_packages (some ⟨0, "no table at all"⟩) = [] :=
  ⟨scan_failures_collapse_to_empty.2.2.2.2.1 3 (some scenarioNpmData)
      (by decide) (by decide),
    scan_failures_collapse_to_empty.2.1 ⟨0, "no table at all"⟩ (by decide)⟩

/-- Counterexample to C2: a winget row whose `Version` and `Available`
columns both read `1.0` is materialized as a record whose current and
available versions are equal. -/
theorem winget_equal_versions_record :
    WingetManager.get_updatable_packages (some ⟨0, sameVersionOutput⟩) =
      [{ name := "A", package_id := "B", current_version := "1.0",
         available_version := "1.0" }] ∧
    ((WingetManager.get_updatable_packages (some ⟨0, sameVersionOutput⟩)).map
      fun r => r.current_version == r.available_version) = [true] := by
  constructor
  · decide
  · decide

/-- Claim C2 (amended): the npm adapter never materializes a record with
equal current and available versions; the winget adapter does not enforce
this invariant. -/
theorem npm_versions_differ
    (input : Option (Int × Option (List (String × NpmValue)))) (r : PackageInfo)
    (hr : r ∈ NpmManager.get_updatable_packages input) :
    r.current_version ≠ r.available_version := by
  rcases input with _ | ⟨rc, out⟩
  · simp [NpmManager.get_updatable_packages] at hr
  · simp only [NpmManager.get_updatable_packages] at hr
    by_cases h : rc = 0 ∨ rc = 1
    · rw [if_pos h] at hr
      rcases out with _ | data
      · simp [npmDecodeRecords] at hr
      · simp only [npmDecodeRecords, List.mem_filterMap] at hr
        obtain ⟨e, _, he⟩ := hr
        rcases e with ⟨nm, v⟩
        cases v with
        | other => simp [npmEntry] at he
        | obj fields =>
          simp only [npmEntry] at he
          split at he
          · rename_i hcond
            cases he
            exact hcond.2.2
          · cases he
    · rw [if_neg h] at hr
      simp at hr

/-- Witness for the amended C2 at the JSON scenario input. -/
theorem npm_versions_differ_w :
    ({ name := "lodash", package_id := "lodash", current_version := "4.0.0",
       available_version := "4.1.0" } : PackageInfo).current_version ≠
      ({ name := "lodash", package_id := "lodash", current_version := "4.0.0",
         available_version := "4.1.0" } : PackageInfo).available_version :=
  npm_versions_differ (some (1, some scenarioNpmData)) _ (by decide)

/-- Counterexample to C3: a blank line directly after the header is
accepted as the separator, and the parser returns a non-empty result. -/
theorem blank_separator_accepted :
    (splitLines blankSeparatorOutput.data).findIdx? isHeaderLine = some 0 ∧
    pyStrip ((splitLines blankSeparatorOutput.data).getD 1 []) = [] ∧
    WingetManager.parse_winget_list blankSeparatorOutput ≠ [] := by
  refine ⟨by decide, by decide, by decide⟩

/-- Claim C3 (amended): once a header is found, the parser returns the
empty sequence unless the next line, stripped, consists only of dash
characters — possibly zero, so a blank or missing line is also accepted as
a separator; a following line with any non-dash character yields empty. -/
theorem separator_all_dash_or_empty :
    (∀ (output : String) (hi : Nat),
      (splitLines output.data).findIdx? isHeaderLine = some hi →
      ((pyStrip ((splitLines output.data).getD (hi + 1) [])).all fun c => c = '-') = false →
      WingetManager.parse_winget_list output = []) ∧
    (∀ (output : String) (hi : Nat),
      (splitLines output.data).findIdx? isHeaderLine = some hi →
      (splitLines output.data).length ≤ hi + 1 →
      WingetManager.parse_winget_list output = []) := by
  constructor
  · intro output hi hfind hdash
    unfold WingetManager.parse_winget_list
    rw [hfind]
    show parseWithHeader (splitLines output.data) hi = []
    unfold parseWithHeader
    by_cases hlen : hi + 1 < (splitLines output.data).length
    · rw [if_pos hlen, if_neg (by rw [hdash]; exact Bool.false_ne_true)]
    · rw [if_neg hlen]
  · intro output hi hfind hlen
    unfold WingetManager.parse_winget_list
    rw [hfind]
    show parseWithHeader (splitLines output.data) hi = []
    unfold parseWithHeader
    rw [if_neg (by omega)]

/-- Witness for the amended C3 at a concrete input with a non-dash
separator line. -/
theorem separator_all_dash_or_empty_w :
    WingetManager.parse_winget_list "Name Id Version\nxxxx\nA B C" = [] :=
  separator_all_dash_or_empty.1 "Name Id Version\nxxxx\nA B C" 0 (by decide) (by decide)

/-- Counterexample to C4: an npm entry with no `current` field is not
excluded — the missing field defaults to the non-empty placeholder `?`
and a record is produced. -/
theorem npm_missing_current_included :
    NpmManager.get_updatable_packages (some (1, some missingCurrentData)) =
      [{ name := "foo", package_id := "foo", current_version := "?",
         available_version := "1.0" }] := by
  decide

/-- Claim C4 (amended): a top-level entry produces a record iff its value
is an object and the `current` and `latest` values — each defaulting to
the placeholder `?` when the field is absent — are non-empty and unequal;
the JSON scenario of the specification holds as stated. -/
theorem npm_entry_characterization :
    (∀ data : List (String × NpmValue),
      NpmManager.get_updatable_packages (some (0, some data)) = data.filterMap npmEntry) ∧
    (∀ (nm : String) (v : NpmValue),
      (npmEntry (nm, v)).isSome = true ↔
        ∃ fields, v = NpmValue.obj fields ∧
          pyDictGetD fields "current" "?" ≠ "" ∧
          pyDictGetD fields "latest" "?" ≠ "" ∧
          pyDictGetD fields "current" "?" ≠ pyDictGetD fields "latest" "?") ∧
    NpmManager.get_updatable_packages (some (1, some scenarioNpmData)) =
      [{ name := "lodash", package_id := "lodash", current_version := "4.0.0",
         available_version := "4.1.0" }] := by
  refine ⟨?_, ?_, by decide⟩
  · intro data
    simp [NpmManager.get_updatable_packages, npmDecodeRecords]
  · intro nm v
    cases v with
    | obj fields =>
      constructor
      · intro h
        simp only [npmEntry] at h
        split at h
        · rename_i hcond
          exact ⟨fields, rfl, hcond.1, hcond.2.1, hcond.2.2⟩
        · simp at h
      · rintro ⟨fields', heq, h1, h2, h3⟩
        cases heq
        simp only [npmEntry]
        rw [if_pos ⟨h1, h2, h3⟩]
        rfl
    | other =>
      simp [npmEntry]

/-- Counterexample to C5: on the specification's own scenario text, the
produced record's `package_id` and `current_version` are not the claimed
values — the row text does not align with the header column offsets. -/
theorem scenario_fields_mismatch :
    ((WingetManager.get_updatable_packages (some ⟨0, scenarioOutput⟩)).map
      fun r => r.package_id) ≠ ["Foo.Bar.Id"] ∧
    ((WingetManager.get_updatable_packages (some ⟨0, scenarioOutput⟩)).map
      fun r => r.current_version) ≠ ["1.0"] := by
  constructor
  · decide
  · decide

/-- Claim C5 (amended): the scenario text yields exactly one record, with
name `Foo.Bar` and available version `2.0` as claimed, but with
package id `Foo.Bar.` and current version `Id  1.0`: the `Id` column
slice `[7:17)` cuts the row text `Foo.Bar.Id` at offset 17, where the
header's `Version` column begins. -/
theorem scenario_record_exact :
    WingetManager.get_updatable_packages (some ⟨0, scenarioOutput⟩) =
      [{ name := "Foo.Bar", package_id := "Foo.Bar.", current_version := "Id  1.0",
         available_version := "2.0" }] := by
  decide

/-- Claim C6: every exit code registered in the winget table above the
signed 32-bit maximum is found under both its unsigned value and its
two's-complement signed value, with the identical message. -/
theorem winget_signed_unsigned_codes :
    ∀ p ∈ WingetManager.get_exit_codes, (0x7FFFFFFF : Int) < p.1 →
      pyDictGet WingetManager.get_exit_codes p.1 = some p.2 ∧
      pyDictGet WingetManager.get_exit_codes (p.1 - 0x100000000) = some p.2 := by
  decide

/-- Witness for C6 at the first large registered code. -/
theorem winget_signed_unsigned_codes_w :
    pyDictGet WingetManager.get_exit_codes 0x8A150006 =
      some "ShellExecute install failed" ∧
    pyDictGet WingetManager.get_exit_codes (0x8A150006 - 0x100000000) =
      some "ShellExecute install failed" :=
  winget_signed_unsigned_codes (0x8A150006, "ShellExecute install failed")
    (by decide) (by decide)

/-- Claim C8: exit-code translation is a total lookup for both adapters —
a registered code returns its table message (code 5 under winget returns
the access-denied message), and an unregistered code returns a fallback
that embeds the decimal representation of the code. -/
theorem translate_exit_code_total :
    (WingetManager.get_exit_code_message 5 = "Access denied — needs admin elevation") ∧
    (∀ (c : Int) (m : String), pyDictGet WingetManager.get_exit_codes c = some m →
      WingetManager.get_exit_code_message c = m) ∧
    (∀ c : Int, pyDictGet WingetManager.get_exit_codes c = none →
      WingetManager.get_exit_code_message c =
        "Unknown error (code " ++ toString c ++ ")") ∧
    (∀ (c : Int) (m : String), pyDictGet npmCodes c = some m →
      NpmManager.get_exit_code_message c = m) ∧
    (∀ c : Int, pyDictGet npmCodes c = none →
      NpmManager.get_exit_code_message c = "npm error (code " ++ toString c ++ ")") := by
  refine ⟨by decide, ?_, ?_, ?_, ?_⟩
  · intro c m h
    simp [WingetManager.get_exit_code_message, h]
  · intro c h
    simp [WingetManager.get_exit_code_message, h]
  · intro c m h
    simp [NpmManager.get_exit_code_message, h]
  · intro c h
    simp [NpmManager.get_exit_code_message, h]

/-- Witness for C8 at the unregistered code 999999. -/
theorem translate_exit_code_total_w :
    pyDictGet WingetManager.get_exit_codes 999999 = none ∧
    WingetManager.get_exit_code_message 999999 =
      "Unknown error (code " ++ toString (999999 : Int) ++ ")" ∧
    pyDictGet npmCodes 999999 = none ∧
    NpmManager.get_exit_code_message 999999 =
      "npm error (code " ++ toString (999999 : Int) ++ ")" :=
  ⟨by decide, translate_exit_code_total.2.2.1 999999 (by decide), by decide,
    translate_exit_code_total.2.2.2.2 999999 (by decide)⟩

/-- Claim C9: the npm scan accepts exit codes 0 and 1 (decoding proceeds
identically for both) and returns the empty list for every other exit
code, whatever the output. -/
theorem npm_exit_code_policy :
    (∀ out : Option (List (String × NpmValue)),
      NpmManager.get_updatable_packages (some (0, out)) = npmDecodeRecords out) ∧
    (∀ out : Option (List (String × NpmValue)),
      NpmManager.get_updatable_packages (some (1, out)) = npmDecodeRecords out) ∧
    (∀ (rc : Int) (out : Option (List (String × NpmValue))), rc ≠ 0 → rc ≠ 1 →
      NpmManager.get_updatable_packages (some (rc, out)) = []) := by
  refine ⟨?_, ?_, ?_⟩
  · intro out
    simp [NpmManager.get_updatable_packages]
  · intro out
    simp [NpmManager.get_updatable_packages]
  · intro rc out h0 h1
    simp [NpmManager.get_updatable_packages, h0, h1]

/-- Witness for C9: exit code 2 yields empty even though the decoded
output lists an outdated package. -/
theorem npm_exit_code_policy_w :
    NpmManager.get_updatable_packages
      (some (2, some [("lodash", NpmValue.obj [("current", "4.0.0"), ("latest", "4.1.0")])])) = [] :=
  npm_exit_code_policy.2.2 2
    (some [("lodash", NpmValue.obj [("current", "4.0.0"), ("latest", "4.1.0")])])
    (by decide) (by decide)

/-- Claim C7: a parsed row contributes a record to the winget scan exactly
when its `Source` value is literally `winget` and its `Available` value is
non-blank after stripping; every other row is excluded. -/
theorem winget_filter_exact (rows : List (List (String × String))) (r : PackageInfo) :
    r ∈ wingetRecords rows ↔
      ∃ p, p ∈ rows ∧ pyDictGet p "Source" = some "winget" ∧
        pyStrip (pyDictGetD p "Available" "").data ≠ [] ∧ mkWingetInfo p = r := by
  simp only [wingetRecords, List.mem_map, List.mem_filter]
  constructor
  · rintro ⟨p, ⟨hp, hk⟩, rfl⟩
    obtain ⟨h1, h2⟩ := (keepRow_iff p).mp hk
    exact ⟨p, hp, h1, h2, rfl⟩
  · rintro ⟨p, hp, h1, h2, rfl⟩
    exact ⟨p, ⟨hp, (keepRow_iff p).mpr ⟨h1, h2⟩⟩, rfl⟩

/-- Membership through `insertByPos` is membership. -/
theorem mem_insertByPos (x y : String × Nat) :
    ∀ l : List (String × Nat), y ∈ insertByPos x l ↔ y = x ∨ y ∈ l := by
  intro l
  induction l with
  | nil => simp [insertByPos]
  | cons hd tl ih =>
    unfold insertByPos
    by_cases h : x.2 < hd.2
    · rw [if_pos h]
      exact List.mem_cons
    · rw [if_neg h]
      simp only [List.mem_cons, ih]
      tauto

/-- Membership through the fold of `sortByPos`. -/
theorem mem_sortByPos_fold (y : String × Nat) :
    ∀ (l acc : List (String × Nat)),
      y ∈ l.foldl (fun acc x => insertByPos x acc) acc ↔ y ∈ acc ∨ y ∈ l := by
  intro l
  induction l with
  | nil => simp
  | cons hd tl ih =>
    intro acc
    simp only [List.foldl_cons, ih, mem_insertByPos, List.mem_cons]
    tauto

/-- Sorting by offset does not change the set of column entries. -/
theorem mem_sortByPos (y : String × Nat) (l : List (String × Nat)) :
    y ∈ sortByPos l ↔ y ∈ l := by
  unfold sortByPos
  rw [mem_sortByPos_fold]
  simp

/-- A column keyword absent from the header never appears in `colStarts`. -/
theorem colStarts_not_mem (header : List Char) (n : String)
    (h : containsSub n.data header = false) :
    ∀ pos : Nat, (n, pos) ∉ colStarts header := by
  intro pos hmem
  unfold colStarts at hmem
  rw [mem_sortByPos, List.mem_filterMap] at hmem
  obtain ⟨a, _, hfa⟩ := hmem
  rw [Option.map_eq_some'] at hfa
  obtain ⟨q, hq, heq⟩ := hfa
  cases heq
  unfold containsSub at h
  rw [hq] at h
  simp at h

/-- A key outside a row's retained columns is absent from the row dict. -/
theorem buildRow_dictGet_none :
    ∀ (cols : List (String × Nat)) (line : List Char) (k : String),
      (∀ pos : Nat, (k, pos) ∉ cols) → pyDictGet (buildRow cols line) k = none := by
  intro cols
  induction cols with
  | nil =>
    intro line k _
    rfl
  | cons hd tl ih =>
    intro line k hk
    rcases hd with ⟨n, s⟩
    have hkn : k ≠ n := by
      intro hkn
      exact hk s (by rw [hkn]; exact List.mem_cons_self _ _)
    have htl : ∀ pos : Nat, (k, pos) ∉ tl := by
      intro pos hpos
      exact hk pos (List.mem_cons_of_mem _ hpos)
    simp only [buildRow, pyDictGet, ih line k htl]
    rw [if_neg (fun hnk => hkn hnk.symm)]

/-- A row with no `Source` binding never passes the winget filter. -/
theorem keepRow_false_of_source_none (p : List (String × String))
    (h : pyDictGet p "Source" = none) : keepRow p = false := by
  unfold keepRow
  rw [h]
  rfl

/-- A row with no `Available` binding never passes the winget filter. -/
theorem keepRow_false_of_available_none (p : List (String × String))
    (h : pyDictGet p "Available" = none) : keepRow p = false := by
  unfold keepRow pyDictGetD
  rw [h]
  simp [pyStrip]

/-- Claim C10: record fields of absent winget columns default to `?`; a
row lacking a `Source` or `Available` binding never passes the filter; and
consequently a scan whose header line lacks the `Available` or `Source`
keyword returns the empty list even when data rows parse. -/
theorem winget_missing_columns :
    (∀ p : List (String × String), pyDictGet p "Name" = none →
      (mkWingetInfo p).name = "?") ∧
    (∀ p : List (String × String), pyDictGet p "Id" = none →
      (mkWingetInfo p).package_id = "?") ∧
    (∀ p : List (String × String), pyDictGet p "Version" = none →
      (mkWingetInfo p).current_version = "?") ∧
    (∀ p : List (String × String), pyDictGet p "Source" = none →
      keepRow p = false) ∧
    (∀ p : List (String × String), pyDictGet p "Available" = none →
      keepRow p = false) ∧
    (∀ (output : String) (rc : Int) (hi : Nat),
      (splitLines output.data).findIdx? isHeaderLine = some hi →
      (containsSub "Available".data ((splitLines output.data).getD hi []) = false ∨
        containsSub "Source".data ((splitLines output.data).getD hi []) = false) →
      WingetManager.get_updatable_packages (some ⟨rc, output⟩) = []) := by
  refine ⟨?_, ?_, ?_, keepRow_false_of_source_none, keepRow_false_of_available_none, ?_⟩
  · intro p h
    simp [mkWingetInfo, pyDictGetD, h]
  · intro p h
    simp [mkWingetInfo, pyDictGetD, h]
  · intro p h
    simp [mkWingetInfo, pyDictGetD, h]
  · intro output rc hi hfind hmiss
    show wingetRecords (WingetManager.parse_winget_list output) = []
    unfold WingetManager.parse_winget_list
    rw [hfind]
    show wingetRecords (parseWithHeader (splitLines output.data) hi) = []
    unfold parseWithHeader
    by_cases h1 : hi + 1 < (splitLines output.data).length
    case neg => rw [if_neg h1]; rfl
    rw [if_pos h1]
    by_cases h2 :
      ((pyStrip ((splitLines output.data).getD (hi + 1) [])).all fun c => c = '-') = true
    case neg => rw [if_neg h2]; rfl
    rw [if_pos h2]
    by_cases h3 : (colStarts ((splitLines output.data).getD hi [])).length < 3
    case pos => simp only [if_pos h3]; rfl
    simp only [if_neg h3]
    unfold wingetRecords
    have hall : ∀ row ∈ (((splitLines output.data).drop (hi + 2)).filter
        fun l => !(pyStrip l).isEmpty).map
          (buildRow (colStarts ((splitLines output.data).getD hi []))),
        keepRow row = false := by
      intro row hrow
      rw [List.mem_map] at hrow
      obtain ⟨l, _, rfl⟩ := hrow
      rcases hmiss with hA | hS
      · exact keepRow_false_of_available_none _
          (buildRow_dictGet_none _ l "Available" (colStarts_not_mem _ _ hA))
      · exact keepRow_false_of_source_none _
          (buildRow_dictGet_none _ l "Source" (colStarts_not_mem _ _ hS))
    rw [List.filter_eq_nil_iff.mpr (fun a ha => by rw [hall a ha]; exact Bool.false_ne_true)]
    rfl

/-- Witness for C10: a header with only `Name`, `Id` and `Version` parses
its data row but the scan returns no records; the empty row maps to `?`
fields. -/
theorem winget_missing_columns_w :
    WingetManager.get_updatable_packages (some ⟨0, noAvailableOutput⟩) = [] ∧
    (mkWingetInfo []).name = "?" ∧
    WingetManager.parse_winget_list noAvailableOutput ≠ [] :=
  ⟨winget_missing_columns.2.2.2.2.2 noAvailableOutput 0 0 (by decide)
      (Or.inl (by decide)),
    winget_missing_columns.1 [] (by decide), by decide⟩

end Updatery
